import Mathlib

/-!
Shallow embedding of `src/circle.ts` (empathycom/circletron): the CircleCI
"last successful build revision" resolver.  Asynchronous fallible calls
(`axios.get`, `requireEnv`) are modelled with `Except String`; thrown
exceptions are `Except.error`.  The top-level `try/catch` that swallows every
failure is the final `match` in `getLastSuccessfulBuildRevisionOnBranch`.
-/

namespace Circletron

/-- Values of `CirclePipelineVCSInfo.provider_name` (`'GitHub' | 'Bitbucket'`). -/
inductive CircleProviderName
  | gitHub
  | bitbucket
deriving DecidableEq

/-- Model of `interface CirclePipelineError`. -/
structure CirclePipelineError where
  type : String
  message : String
deriving DecidableEq

/-- Model of `interface CirclePipelineVCSInfo`. -/
structure CirclePipelineVCSInfo where
  provider_name : CircleProviderName
  revision : String
deriving DecidableEq

/-- Model of `enum CirclePipelineState`. -/
inductive CirclePipelineState
  | created
  | errored
  | setupPending
  | setup
  | pending
deriving DecidableEq

/-- Model of `interface CirclePipelineItem`. -/
structure CirclePipelineItem where
  id : String
  errors : List CirclePipelineError
  state : CirclePipelineState
  vcs : CirclePipelineVCSInfo
deriving DecidableEq

/-- Model of `enum CircleWorkflowStatus`.  The JSON decoding in the source is
unchecked (`axios.get<CircleWorkflows>`), so a workflow's status string can
fall outside the enum; `unrecognized raw` models such a value, which the
priority lookup `statusPriority[status] || 0` sends to 0. -/
inductive CircleWorkflowStatus
  | success
  | running
  | notRun
  | failed
  | error
  | failing
  | onHold
  | canceled
  | unauthorized
  | unrecognized (raw : String)
deriving DecidableEq

/-- Model of `interface CircleWorkflowItem`. -/
structure CircleWorkflowItem where
  id : String
  name : String
  status : CircleWorkflowStatus
deriving DecidableEq

/-- The literal `statusPriority` mapping in `shouldPreferWorkflow`, together
with the `|| 0` default applied on lookup: statuses absent from the mapping
rank 0. -/
def statusPriority : CircleWorkflowStatus → Nat
  | CircleWorkflowStatus.success => 5
  | CircleWorkflowStatus.onHold => 4
  | CircleWorkflowStatus.running => 3
  | CircleWorkflowStatus.notRun => 2
  | CircleWorkflowStatus.failed => 1
  | CircleWorkflowStatus.error => 1
  | CircleWorkflowStatus.failing => 1
  | CircleWorkflowStatus.canceled => 1
  | CircleWorkflowStatus.unauthorized => 0
  | CircleWorkflowStatus.unrecognized _ => 0

/-- Model of `shouldPreferWorkflow(candidate, existing)`:
`candidatePriority > existingPriority` (strict). -/
def shouldPreferWorkflow (candidate existing : CircleWorkflowItem) : Bool :=
  decide (statusPriority candidate.status > statusPriority existing.status)

/-- One iteration of the dedup loop body in
`getLastSuccessfulBuildRevisionOnBranch`: look the workflow's name up in the
map; insert when absent, replace when `shouldPreferWorkflow` holds.  The JS
`Map` is modelled as a list of entries in insertion order: `Map.set` on a
fresh key appends, on an existing key overwrites in place. -/
def dedupeStep (workflowMap : List CircleWorkflowItem)
    (workflow : CircleWorkflowItem) : List CircleWorkflowItem :=
  match workflowMap.find? (fun x => x.name == workflow.name) with
  | none => workflowMap ++ [workflow]
  | some existing =>
    if shouldPreferWorkflow workflow existing then
      workflowMap.map (fun x => if x.name == workflow.name then workflow else x)
    else
      workflowMap

/-- The `for (const workflow of workflowData.items)` dedup loop followed by
`Array.from(workflowMap.values())`. -/
def dedupeWorkflows (workflows : List CircleWorkflowItem) : List CircleWorkflowItem :=
  workflows.foldl dedupeStep []

/-- The green check on a pipeline's workflow list: deduplicate, keep the
workflows whose status is in `[Success, OnHold]`, and compare counts
(`successfulWorkflows.length > 0 && successfulWorkflows.length === uniqueWorkflows.length`). -/
def isGreenWorkflows (workflows : List CircleWorkflowItem) : Bool :=
  let uniqueWorkflows := dedupeWorkflows workflows
  let successfulWorkflows := uniqueWorkflows.filter
    (fun workflow =>
      [CircleWorkflowStatus.success, CircleWorkflowStatus.onHold].contains workflow.status)
  decide (successfulWorkflows.length > 0) &&
    successfulWorkflows.length == uniqueWorkflows.length

/-- The external collaborators of `getLastSuccessfulBuildRevisionOnBranch`:
`requireEnv` for the two environment variables (throwing when absent), the
slug-extracting regex on the build URL, and the two `axios.get` calls
(pipelines by slug and branch, workflows by pipeline id).  A failing call is
`Except.error`. -/
structure CircleEnv where
  buildUrl : Except String String
  circleToken : Except String String
  parseSlug : String → Option String
  pipelines : String → String → Except String (List CirclePipelineItem)
  workflows : String → Except String (List CircleWorkflowItem)

/-- The async callback passed to `find`: state check, workflow fetch, dedup
and green check for one pipeline. -/
def evalPipeline (env : CircleEnv) (pipeline : CirclePipelineItem) :
    Except String Bool :=
  if pipeline.state = CirclePipelineState.created then
    match env.workflows pipeline.id with
    | Except.error e => Except.error e
    | Except.ok workflowData => Except.ok (isGreenWorkflows workflowData)
  else
    Except.ok false

/-- Version of `evalPipeline` instrumented with the list of pipeline ids for which a
workflow fetch was issued. -/
def evalPipelineT (env : CircleEnv) (pipeline : CirclePipelineItem) :
    Except String (Bool × List String) :=
  if pipeline.state = CirclePipelineState.created then
    match env.workflows pipeline.id with
    | Except.error e => Except.error e
    | Except.ok workflowData => Except.ok (isGreenWorkflows workflowData, [pipeline.id])
  else
    Except.ok (false, [])

/-- The `find` helper of the source: sequential scan awaiting each callback,
returning the first element for which the callback yields `true`, `null`
(here `none`) when none does.  A callback failure propagates. -/
def find {I : Type} (items : List I) (asyncCallback : I → Except String Bool) :
    Except String (Option I) :=
  match items with
  | [] => Except.ok none
  | element :: rest =>
    match asyncCallback element with
    | Except.error e => Except.error e
    | Except.ok true => Except.ok (some element)
    | Except.ok false => find rest asyncCallback

/-- Version of `find` over pipelines instrumented with the accumulated workflow-fetch
trace. -/
def scanPipelinesT (env : CircleEnv) :
    List CirclePipelineItem → Except String (Option CirclePipelineItem × List String)
  | [] => Except.ok (none, [])
  | pipeline :: rest =>
    match evalPipelineT env pipeline with
    | Except.error e => Except.error e
    | Except.ok (true, t) => Except.ok (some pipeline, t)
    | Except.ok (false, t) =>
      match scanPipelinesT env rest with
      | Except.error e => Except.error e
      | Except.ok (r, t2) => Except.ok (r, t ++ t2)

/-- The body of the `try` block of `getLastSuccessfulBuildRevisionOnBranch`:
read the two environment variables, extract the slug, fetch the pipelines,
scan them with `find`, and project the winner's `vcs.revision`.  When the
regex fails the function falls off the `if` and returns `undefined` without
an error. -/
def resolverBody (env : CircleEnv) (branch : String) :
    Except String (Option String) :=
  match env.buildUrl with
  | Except.error e => Except.error e
  | Except.ok buildUrl =>
    match env.circleToken with
    | Except.error e => Except.error e
    | Except.ok _circleToken =>
      match env.parseSlug buildUrl with
      | some slugAndBuildNumber =>
        match env.pipelines slugAndBuildNumber branch with
        | Except.error e => Except.error e
        | Except.ok pipelineData =>
          match find pipelineData (evalPipeline env) with
          | Except.error e => Except.error e
          | Except.ok lastSuccessfulBuild =>
            Except.ok (lastSuccessfulBuild.map (fun p => p.vcs.revision))
      | none => Except.ok none

/-- Model of `getLastSuccessfulBuildRevisionOnBranch`: the whole body sits in a
`try/catch` whose `catch` logs and returns `undefined`, so every failure
collapses to `none`. -/
def getLastSuccessfulBuildRevisionOnBranch (env : CircleEnv) (branch : String) :
    Option String :=
  match resolverBody env branch with
  | Except.error _ => none
  | Except.ok r => r

/-- Specification-side helper for stating the dedup order invariant: the
first occurrences of the elements of a list, in order, relative to an
already-seen set. -/
def firstOccAux (seen : List String) : List String → List String
  | [] => []
  | n :: ns =>
    if n ∈ seen then firstOccAux seen ns else n :: firstOccAux (n :: seen) ns

/-- Specification-side: the distinct elements of a list in order of first
occurrence. -/
def firstOccurrences (l : List String) : List String :=
  firstOccAux [] l

/-! ### Concrete sample data for evaluating the definitions -/

/-- Sample workflow: a successful `build`. -/
def wfBuildSuccess : CircleWorkflowItem :=
  { id := "w1", name := "build", status := CircleWorkflowStatus.success }

/-- Sample workflow: a failed `build` (an earlier run of the same workflow). -/
def wfBuildFailed : CircleWorkflowItem :=
  { id := "w2", name := "build", status := CircleWorkflowStatus.failed }

/-- Sample workflow: a `test` run on hold. -/
def wfTestOnHold : CircleWorkflowItem :=
  { id := "w3", name := "test", status := CircleWorkflowStatus.onHold }

/-- Sample workflow: a failed `test`. -/
def wfTestFailed : CircleWorkflowItem :=
  { id := "w4", name := "test", status := CircleWorkflowStatus.failed }

/-- Sample workflow: an unauthorized `build`. -/
def wfBuildUnauthorized : CircleWorkflowItem :=
  { id := "w5", name := "build", status := CircleWorkflowStatus.unauthorized }

/-- Sample workflow: a second successful `build` (a rerun tying in status). -/
def wfBuildSuccess2 : CircleWorkflowItem :=
  { id := "w6", name := "build", status := CircleWorkflowStatus.success }

/-- Sample pipeline builder. -/
def mkPipeline (i : String) (st : CirclePipelineState) (rev : String) :
    CirclePipelineItem :=
  { id := i, errors := [], state := st,
    vcs := { provider_name := CircleProviderName.gitHub, revision := rev } }

/-- A pipeline still pending (ineligible). -/
def pPending : CirclePipelineItem := mkPipeline "p1" CirclePipelineState.pending "rev-pending"

/-- A created pipeline whose workflows dedupe to all-green. -/
def pGreen : CirclePipelineItem := mkPipeline "p2" CirclePipelineState.created "rev-green"

/-- A created pipeline after the green one. -/
def pLater : CirclePipelineItem := mkPipeline "p3" CirclePipelineState.created "rev-old"

/-- A created pipeline whose workflows are failing. -/
def pRed : CirclePipelineItem := mkPipeline "p4" CirclePipelineState.created "rev-red"

/-- A created pipeline whose workflow fetch will fail. -/
def pErr : CirclePipelineItem := mkPipeline "p5" CirclePipelineState.created "rev-err"

/-- Environment in which the second pipeline is green. -/
def envGreen : CircleEnv :=
  { buildUrl := Except.ok "https://circleci.com/gh/acme/widget/42",
    circleToken := Except.ok "tok",
    parseSlug := fun _ => some "gh/acme/widget",
    pipelines := fun _ _ => Except.ok [pPending, pGreen, pLater],
    workflows := fun pid =>
      if pid = "p2" then Except.ok [wfBuildSuccess, wfBuildFailed, wfTestOnHold]
      else Except.ok [wfTestFailed] }

/-- Environment in which no pipeline is green. -/
def envAllRed : CircleEnv :=
  { buildUrl := Except.ok "https://circleci.com/gh/acme/widget/42",
    circleToken := Except.ok "tok",
    parseSlug := fun _ => some "gh/acme/widget",
    pipelines := fun _ _ => Except.ok [pPending, pRed],
    workflows := fun _ => Except.ok [wfTestFailed] }

/-- Environment in which every workflow fetch fails. -/
def envFetchFail : CircleEnv :=
  { buildUrl := Except.ok "https://circleci.com/gh/acme/widget/42",
    circleToken := Except.ok "tok",
    parseSlug := fun _ => some "gh/acme/widget",
    pipelines := fun _ _ => Except.ok [pPending, pErr, pLater],
    workflows := fun _ => Except.error "socket hang up" }

/-- Environment in which the build-URL environment variable is missing. -/
def envNoConfig : CircleEnv :=
  { buildUrl := Except.error "CIRCLE_BUILD_URL missing",
    circleToken := Except.ok "tok",
    parseSlug := fun _ => some "gh/acme/widget",
    pipelines := fun _ _ => Except.ok [],
    workflows := fun _ => Except.ok [] }

/-- Environment in which the branch has no pipelines at all. -/
def envEmptyPipelines : CircleEnv :=
  { buildUrl := Except.ok "https://circleci.com/gh/acme/widget/42",
    circleToken := Except.ok "tok",
    parseSlug := fun _ => some "gh/acme/widget",
    pipelines := fun _ _ => Except.ok [],
    workflows := fun _ => Except.ok [] }

/-! ### Helper lemmas about the dedup fold -/

theorem dedupeWorkflows_append (xs : List CircleWorkflowItem) (w : CircleWorkflowItem) :
    dedupeWorkflows (xs ++ [w]) = dedupeStep (dedupeWorkflows xs) w := by
  simp [dedupeWorkflows, List.foldl_append]

theorem mem_firstOccAux (seen l : List String) (n : String) :
    n ∈ firstOccAux seen l ↔ n ∈ l ∧ n ∉ seen := by
  induction l generalizing seen with
  | nil => simp [firstOccAux]
  | cons a l ih =>
    by_cases ha : a ∈ seen
    · simp only [firstOccAux, if_pos ha, ih, List.mem_cons]
      constructor
      · rintro ⟨h1, h2⟩
        exact ⟨Or.inr h1, h2⟩
      · rintro ⟨h1 | h1, h2⟩
        · exact absurd (h1 ▸ ha) h2
        · exact ⟨h1, h2⟩
    · simp only [firstOccAux, if_neg ha, List.mem_cons, ih]
      constructor
      · rintro (rfl | ⟨h1, h2⟩)
        · exact ⟨Or.inl rfl, ha⟩
        · exact ⟨Or.inr h1, fun hs => h2 (Or.inr hs)⟩
      · rintro ⟨rfl | h1, h2⟩
        · exact Or.inl rfl
        · by_cases hna : n = a
          · exact Or.inl hna
          · exact Or.inr ⟨h1, fun hc => hc.elim hna h2⟩

theorem firstOccAux_nodup (seen l : List String) : (firstOccAux seen l).Nodup := by
  induction l generalizing seen with
  | nil => simp [firstOccAux]
  | cons a l ih =>
    by_cases ha : a ∈ seen
    · simpa [firstOccAux, if_pos ha] using ih seen
    · simp only [firstOccAux, if_neg ha, List.nodup_cons]
      exact ⟨fun hmem => ((mem_firstOccAux _ _ _).mp hmem).2 (List.mem_cons_self a seen), ih _⟩

theorem firstOccAux_append_singleton (seen l : List String) (a : String) :
    firstOccAux seen (l ++ [a]) =
      firstOccAux seen l ++ (if a ∈ seen ∨ a ∈ l then [] else [a]) := by
  induction l generalizing seen with
  | nil => by_cases ha : a ∈ seen <;> simp [firstOccAux, ha]
  | cons b l ih =>
    rw [List.cons_append]
    by_cases hb : b ∈ seen
    · simp only [firstOccAux, if_pos hb]
      rw [ih seen]
      by_cases hc : a ∈ seen ∨ a ∈ l
      · have hc2 : a ∈ seen ∨ a ∈ b :: l := hc.imp id (List.mem_cons_of_mem b)
        rw [if_pos hc, if_pos hc2]
      · have hc2 : ¬(a ∈ seen ∨ a ∈ b :: l) := by
          rintro (h | h)
          · exact hc (Or.inl h)
          · rcases List.mem_cons.mp h with rfl | h'
            · exact hc (Or.inl hb)
            · exact hc (Or.inr h')
        rw [if_neg hc, if_neg hc2]
    · simp only [firstOccAux, if_neg hb, List.cons_append]
      rw [ih (b :: seen)]
      by_cases hc : a ∈ seen ∨ a ∈ b :: l
      · have hc1 : a ∈ b :: seen ∨ a ∈ l := by
          rcases hc with h | h
          · exact Or.inl (List.mem_cons_of_mem b h)
          · rcases List.mem_cons.mp h with rfl | h'
            · exact Or.inl (List.mem_cons_self a seen)
            · exact Or.inr h'
        rw [if_pos hc1, if_pos hc]
      · have hc1 : ¬(a ∈ b :: seen ∨ a ∈ l) := by
          rintro (h | h)
          · rcases List.mem_cons.mp h with rfl | h'
            · exact hc (Or.inr (List.mem_cons_self a l))
            · exact hc (Or.inl h')
          · exact hc (Or.inr (List.mem_cons_of_mem b h))
        rw [if_neg hc1, if_neg hc]

theorem mem_firstOccurrences (l : List String) (n : String) :
    n ∈ firstOccurrences l ↔ n ∈ l := by
  simp [firstOccurrences, mem_firstOccAux]

theorem firstOccurrences_nodup (l : List String) : (firstOccurrences l).Nodup :=
  firstOccAux_nodup [] l

theorem firstOccurrences_append_singleton (l : List String) (a : String) :
    firstOccurrences (l ++ [a]) =
      if a ∈ l then firstOccurrences l else firstOccurrences l ++ [a] := by
  rw [firstOccurrences, firstOccAux_append_singleton]
  by_cases h : a ∈ l <;> simp [h, firstOccurrences]

theorem name_dedupeReplace (w x : CircleWorkflowItem) :
    (if x.name == w.name then w else x).name = x.name := by
  by_cases h : (x.name == w.name) = true
  · rw [if_pos h]
    exact (eq_of_beq h).symm
  · rw [if_neg h]

theorem mem_dedupeStep {m : List CircleWorkflowItem} {w x : CircleWorkflowItem}
    (hx : x ∈ dedupeStep m w) : x ∈ m ∨ x = w := by
  cases h : m.find? (fun y => y.name == w.name) with
  | none =>
    simp only [dedupeStep, h] at hx
    rcases List.mem_append.mp hx with h1 | h1
    · exact Or.inl h1
    · exact Or.inr (by simpa using h1)
  | some e =>
    by_cases hp : shouldPreferWorkflow w e = true
    · simp only [dedupeStep, h, if_pos hp] at hx
      obtain ⟨y, hy, hyx⟩ := List.mem_map.mp hx
      by_cases hyn : (y.name == w.name) = true
      · rw [if_pos hyn] at hyx
        exact Or.inr hyx.symm
      · rw [if_neg hyn] at hyx
        exact Or.inl (hyx ▸ hy)
    · simp only [dedupeStep, h, if_neg hp] at hx
      exact Or.inl hx

theorem mem_foldl_dedupeStep (xs : List CircleWorkflowItem) :
    ∀ (m : List CircleWorkflowItem) (x : CircleWorkflowItem),
      x ∈ xs.foldl dedupeStep m → x ∈ m ∨ x ∈ xs := by
  induction xs with
  | nil =>
    intro m x hx
    exact Or.inl (by simpa using hx)
  | cons w xs ih =>
    intro m x hx
    simp only [List.foldl_cons] at hx
    rcases ih (dedupeStep m w) x hx with h | h
    · rcases mem_dedupeStep h with h' | h'
      · exact Or.inl h'
      · exact Or.inr (by simp [h'])
    · exact Or.inr (List.mem_cons_of_mem _ h)

theorem mem_dedupeWorkflows {xs : List CircleWorkflowItem} {x : CircleWorkflowItem}
    (hx : x ∈ dedupeWorkflows xs) : x ∈ xs := by
  rcases mem_foldl_dedupeStep xs [] x hx with h | h
  · simp at h
  · exact h

theorem map_name_dedupeStep (m : List CircleWorkflowItem) (w : CircleWorkflowItem) :
    (dedupeStep m w).map (fun x => x.name) =
      if w.name ∈ m.map (fun x => x.name) then m.map (fun x => x.name)
      else m.map (fun x => x.name) ++ [w.name] := by
  cases h : m.find? (fun x => x.name == w.name) with
  | none =>
    have hn : w.name ∉ m.map (fun x => x.name) := by
      intro hmem
      obtain ⟨x, hx, hxe⟩ := List.mem_map.mp hmem
      have hne := List.find?_eq_none.mp h x hx
      simp [hxe] at hne
    simp only [dedupeStep, h, if_neg hn, List.map_append, List.map_cons, List.map_nil]
  | some e =>
    have heMem : e ∈ m := List.mem_of_find?_eq_some h
    have hbeq := List.find?_some h
    have heName : e.name = w.name := eq_of_beq (by simpa using hbeq)
    have hmem : w.name ∈ m.map (fun x => x.name) :=
      List.mem_map.mpr ⟨e, heMem, heName⟩
    by_cases hp : shouldPreferWorkflow w e = true
    · simp only [dedupeStep, h, if_pos hp, if_pos hmem, List.map_map]
      refine List.map_congr_left ?_
      intro x _
      exact name_dedupeReplace w x
    · simp only [dedupeStep, h, if_neg hp, if_pos hmem]

theorem map_name_dedupeWorkflows (xs : List CircleWorkflowItem) :
    (dedupeWorkflows xs).map (fun x => x.name) =
      firstOccurrences (xs.map (fun x => x.name)) := by
  induction xs using List.reverseRecOn with
  | nil => simp [dedupeWorkflows, firstOccurrences, firstOccAux]
  | append_singleton xs w ih =>
    rw [dedupeWorkflows_append, map_name_dedupeStep, ih, List.map_append,
      List.map_cons, List.map_nil, firstOccurrences_append_singleton]
    by_cases h : w.name ∈ xs.map (fun x => x.name)
    · rw [if_pos ((mem_firstOccurrences _ _).mpr h), if_pos h]
    · rw [if_neg (fun hc => h ((mem_firstOccurrences _ _).mp hc)), if_neg h]

theorem nodup_map_name_dedupeWorkflows (xs : List CircleWorkflowItem) :
    ((dedupeWorkflows xs).map (fun x => x.name)).Nodup := by
  rw [map_name_dedupeWorkflows]
  exact firstOccurrences_nodup _

theorem mem_map_name_dedupeWorkflows (xs : List CircleWorkflowItem) (n : String) :
    n ∈ (dedupeWorkflows xs).map (fun x => x.name) ↔ n ∈ xs.map (fun x => x.name) := by
  rw [map_name_dedupeWorkflows]
  exact mem_firstOccurrences _ _

theorem statusPriority_le_dedupe (xs : List CircleWorkflowItem) :
    ∀ w ∈ dedupeWorkflows xs, ∀ v ∈ xs, v.name = w.name →
      statusPriority v.status ≤ statusPriority w.status := by
  induction xs using List.reverseRecOn with
  | nil =>
    intro w hw
    simp [dedupeWorkflows] at hw
  | append_singleton xs w0 ih =>
    intro w hw v hv hname
    rw [dedupeWorkflows_append] at hw
    cases hfind : (dedupeWorkflows xs).find? (fun x => x.name == w0.name) with
    | none =>
      have hnotin : ∀ x ∈ dedupeWorkflows xs, x.name ≠ w0.name := by
        intro x hx
        have hne := List.find?_eq_none.mp hfind x hx
        simpa using hne
      have hA : w0.name ∉ xs.map (fun x => x.name) := by
        intro hmem
        have hm2 : w0.name ∈ (dedupeWorkflows xs).map (fun x => x.name) :=
          (mem_map_name_dedupeWorkflows xs _).mpr hmem
        obtain ⟨x, hx, hxe⟩ := List.mem_map.mp hm2
        exact hnotin x hx hxe
      simp only [dedupeStep, hfind] at hw
      rcases List.mem_append.mp hw with hwm | hww
      · rcases List.mem_append.mp hv with hvx | hv0
        · exact ih w hwm v hvx hname
        · have hv0' : v = w0 := by simpa using hv0
          subst hv0'
          exact absurd hname.symm (hnotin w hwm)
      · have hww' : w = w0 := by simpa using hww
        subst hww'
        rcases List.mem_append.mp hv with hvx | hv0
        · exact absurd (List.mem_map.mpr ⟨v, hvx, hname⟩) hA
        · have hv0' : v = w := by simpa using hv0
          subst hv0'
          exact le_refl _
    | some e =>
      have heMem : e ∈ dedupeWorkflows xs := List.mem_of_find?_eq_some hfind
      have hbeq := List.find?_some hfind
      have heName : e.name = w0.name := eq_of_beq (by simpa using hbeq)
      by_cases hp : shouldPreferWorkflow w0 e = true
      · have hlt : statusPriority e.status < statusPriority w0.status := by
          simpa [shouldPreferWorkflow] using hp
        simp only [dedupeStep, hfind, if_pos hp] at hw
        obtain ⟨x, hx, hxw⟩ := List.mem_map.mp hw
        by_cases hxn : (x.name == w0.name) = true
        · rw [if_pos hxn] at hxw
          have hww0 : w = w0 := hxw.symm
          subst hww0
          rcases List.mem_append.mp hv with hvx | hv0
          · have h1 : statusPriority v.status ≤ statusPriority e.status :=
              ih e heMem v hvx (by rw [heName]; exact hname)
            exact le_trans h1 (le_of_lt hlt)
          · have hv0' : v = w := by simpa using hv0
            subst hv0'
            exact le_refl _
        · rw [if_neg hxn] at hxw
          have hwx : w = x := hxw.symm
          subst hwx
          rcases List.mem_append.mp hv with hvx | hv0
          · exact ih w hx v hvx hname
          · have hv0' : v = w0 := by simpa using hv0
            subst hv0'
            exact absurd (beq_iff_eq.mpr hname.symm) hxn
      · have hle : statusPriority w0.status ≤ statusPriority e.status := by
          have hnp : ¬ statusPriority e.status < statusPriority w0.status := by
            simpa [shouldPreferWorkflow] using hp
          exact Nat.le_of_not_lt hnp
        simp only [dedupeStep, hfind, if_neg hp] at hw
        rcases List.mem_append.mp hv with hvx | hv0
        · exact ih w hw v hvx hname
        · have hv0' : v = w0 := by simpa using hv0
          subst hv0'
          have hwe : w = e := by
            apply List.inj_on_of_nodup_map (nodup_map_name_dedupeWorkflows xs) hw heMem
            rw [← hname, heName]
          rw [hwe]
          exact hle

theorem dedupe_first_among_max (xs : List CircleWorkflowItem) :
    ∀ w ∈ dedupeWorkflows xs, ∃ l1 l2, xs = l1 ++ w :: l2 ∧
      ∀ v ∈ l1, v.name = w.name →
        statusPriority v.status < statusPriority w.status := by
  induction xs using List.reverseRecOn with
  | nil =>
    intro w hw
    simp [dedupeWorkflows] at hw
  | append_singleton xs w0 ih =>
    intro w hw
    rw [dedupeWorkflows_append] at hw
    cases hfind : (dedupeWorkflows xs).find? (fun x => x.name == w0.name) with
    | none =>
      have hnotin : ∀ x ∈ dedupeWorkflows xs, x.name ≠ w0.name := by
        intro x hx
        have hne := List.find?_eq_none.mp hfind x hx
        simpa using hne
      have hA : w0.name ∉ xs.map (fun x => x.name) := by
        intro hmem
        have hm2 : w0.name ∈ (dedupeWorkflows xs).map (fun x => x.name) :=
          (mem_map_name_dedupeWorkflows xs _).mpr hmem
        obtain ⟨x, hx, hxe⟩ := List.mem_map.mp hm2
        exact hnotin x hx hxe
      simp only [dedupeStep, hfind] at hw
      rcases List.mem_append.mp hw with hwm | hww
      · obtain ⟨l1, l2, hsplit, hprev⟩ := ih w hwm
        exact ⟨l1, l2 ++ [w0], by rw [hsplit]; simp, hprev⟩
      · have hww' : w = w0 := by simpa using hww
        subst hww'
        refine ⟨xs, [], rfl, ?_⟩
        intro v hv hvname
        exact absurd (List.mem_map.mpr ⟨v, hv, hvname⟩) hA
    | some e =>
      have heMem : e ∈ dedupeWorkflows xs := List.mem_of_find?_eq_some hfind
      have hbeq := List.find?_some hfind
      have heName : e.name = w0.name := eq_of_beq (by simpa using hbeq)
      by_cases hp : shouldPreferWorkflow w0 e = true
      · have hlt : statusPriority e.status < statusPriority w0.status := by
          simpa [shouldPreferWorkflow] using hp
        simp only [dedupeStep, hfind, if_pos hp] at hw
        obtain ⟨x, hx, hxw⟩ := List.mem_map.mp hw
        by_cases hxn : (x.name == w0.name) = true
        · rw [if_pos hxn] at hxw
          have hww0 : w = w0 := hxw.symm
          subst hww0
          refine ⟨xs, [], rfl, ?_⟩
          intro v hv hvname
          have h1 : statusPriority v.status ≤ statusPriority e.status :=
            statusPriority_le_dedupe xs e heMem v hv (by rw [heName]; exact hvname)
          exact lt_of_le_of_lt h1 hlt
        · rw [if_neg hxn] at hxw
          have hwx : w = x := hxw.symm
          subst hwx
          obtain ⟨l1, l2, hsplit, hprev⟩ := ih w hx
          exact ⟨l1, l2 ++ [w0], by rw [hsplit]; simp, hprev⟩
      · simp only [dedupeStep, hfind, if_neg hp] at hw
        obtain ⟨l1, l2, hsplit, hprev⟩ := ih w hw
        exact ⟨l1, l2 ++ [w0], by rw [hsplit]; simp, hprev⟩

theorem dedupeStep_of_not_mem_names {m : List CircleWorkflowItem}
    {w : CircleWorkflowItem} (h : w.name ∉ m.map (fun x => x.name)) :
    dedupeStep m w = m ++ [w] := by
  have hfind : m.find? (fun x => x.name == w.name) = none := by
    rw [List.find?_eq_none]
    intro x hx
    intro hxe
    exact h (List.mem_map.mpr ⟨x, hx, eq_of_beq hxe⟩)
  simp [dedupeStep, hfind]

theorem dedupeWorkflows_of_nodup_names {xs : List CircleWorkflowItem}
    (h : (xs.map (fun x => x.name)).Nodup) : dedupeWorkflows xs = xs := by
  induction xs using List.reverseRecOn with
  | nil => rfl
  | append_singleton xs w ih =>
    rw [List.map_append] at h
    rcases List.nodup_append.mp h with ⟨h1, _, hdisj⟩
    have h2 : w.name ∉ xs.map (fun x => x.name) := by
      intro hc
      exact hdisj hc (by simp)
    rw [dedupeWorkflows_append, ih h1, dedupeStep_of_not_mem_names h2]

theorem dedupeWorkflows_idem (xs : List CircleWorkflowItem) :
    dedupeWorkflows (dedupeWorkflows xs) = dedupeWorkflows xs :=
  dedupeWorkflows_of_nodup_names (nodup_map_name_dedupeWorkflows xs)

theorem isGreenWorkflows_iff (workflows : List CircleWorkflowItem) :
    isGreenWorkflows workflows = true ↔
      (dedupeWorkflows workflows ≠ [] ∧
        ∀ w ∈ dedupeWorkflows workflows,
          w.status = CircleWorkflowStatus.success ∨
            w.status = CircleWorkflowStatus.onHold) := by
  have hp : ∀ w : CircleWorkflowItem,
      (([CircleWorkflowStatus.success,
          CircleWorkflowStatus.onHold].contains w.status) = true) ↔
        (w.status = CircleWorkflowStatus.success ∨
          w.status = CircleWorkflowStatus.onHold) := by
    intro w
    simp
  simp only [isGreenWorkflows, Bool.and_eq_true, decide_eq_true_eq, beq_iff_eq]
  constructor
  · rintro ⟨hpos, hlen⟩
    constructor
    · intro hnil
      rw [hnil] at hpos
      simp at hpos
    · intro w hw
      have hfe := (List.filter_sublist (dedupeWorkflows workflows)).eq_of_length hlen
      have hmem := List.filter_eq_self.mp hfe w hw
      exact (hp w).mp hmem
  · rintro ⟨hne, hall⟩
    have hfe :
        List.filter (fun workflow =>
          [CircleWorkflowStatus.success,
            CircleWorkflowStatus.onHold].contains workflow.status)
          (dedupeWorkflows workflows) = dedupeWorkflows workflows :=
      List.filter_eq_self.mpr (fun w hw => (hp w).mpr (hall w hw))
    rw [hfe]
    exact ⟨List.length_pos.mpr hne, rfl⟩

/-! ### Helper lemmas about the sequential scan -/

theorem find_of_all_false {I : Type} (items : List I) (f : I → Except String Bool)
    (h : ∀ x ∈ items, f x = Except.ok false) : find items f = Except.ok none := by
  induction items with
  | nil => rfl
  | cons a l ih =>
    simp only [find, h a (List.mem_cons_self a l)]
    exact ih (fun x hx => h x (List.mem_cons_of_mem a hx))

theorem find_first_true {I : Type} (pre : List I) (p : I) (post : List I)
    (f : I → Except String Bool)
    (hpre : ∀ x ∈ pre, f x = Except.ok false) (hp : f p = Except.ok true) :
    find (pre ++ p :: post) f = Except.ok (some p) := by
  induction pre with
  | nil => simp only [List.nil_append, find, hp]
  | cons a l ih =>
    simp only [List.cons_append, find, hpre a (List.mem_cons_self a l)]
    exact ih (fun x hx => hpre x (List.mem_cons_of_mem a hx))

theorem find_error_after_false {I : Type} (pre : List I) (p : I) (post : List I)
    (f : I → Except String Bool) (e : String)
    (hpre : ∀ x ∈ pre, f x = Except.ok false) (hp : f p = Except.error e) :
    find (pre ++ p :: post) f = Except.error e := by
  induction pre with
  | nil => simp only [List.nil_append, find, hp]
  | cons a l ih =>
    simp only [List.cons_append, find, hpre a (List.mem_cons_self a l)]
    exact ih (fun x hx => hpre x (List.mem_cons_of_mem a hx))

theorem evalPipelineT_eq (env : CircleEnv) (p : CirclePipelineItem) :
    evalPipelineT env p =
      (evalPipeline env p).map
        (fun b => (b, if p.state = CirclePipelineState.created then [p.id] else [])) := by
  unfold evalPipelineT evalPipeline
  by_cases h : p.state = CirclePipelineState.created
  · cases hw : env.workflows p.id <;> simp [h, hw, Except.map]
  · simp [h, Except.map]

theorem scanPipelinesT_first_true (env : CircleEnv) (pre : List CirclePipelineItem)
    (p : CirclePipelineItem) (post : List CirclePipelineItem)
    (hpre : ∀ q ∈ pre, evalPipeline env q = Except.ok false)
    (hp : evalPipeline env p = Except.ok true) :
    ∃ t, scanPipelinesT env (pre ++ p :: post) = Except.ok (some p, t) ∧
      ∀ i ∈ t, i ∈ (pre ++ [p]).map (fun q => q.id) := by
  induction pre with
  | nil =>
    have hpt : evalPipelineT env p =
        Except.ok (true,
          if p.state = CirclePipelineState.created then [p.id] else []) := by
      rw [evalPipelineT_eq, hp]
      rfl
    refine ⟨if p.state = CirclePipelineState.created then [p.id] else [], ?_, ?_⟩
    · simp only [List.nil_append, scanPipelinesT, hpt]
    · intro i hi
      by_cases hc : p.state = CirclePipelineState.created
      · rw [if_pos hc] at hi
        simp only [List.mem_singleton] at hi
        simp [hi]
      · rw [if_neg hc] at hi
        simp at hi
  | cons a l ih =>
    have ha : evalPipelineT env a =
        Except.ok (false,
          if a.state = CirclePipelineState.created then [a.id] else []) := by
      rw [evalPipelineT_eq, hpre a (List.mem_cons_self a l)]
      rfl
    obtain ⟨t, ht, hsub⟩ := ih (fun q hq => hpre q (List.mem_cons_of_mem a hq))
    refine ⟨(if a.state = CirclePipelineState.created then [a.id] else []) ++ t, ?_, ?_⟩
    · simp only [List.cons_append, scanPipelinesT, ha, List.append_eq, ht]
    · intro i hi
      simp only [List.cons_append, List.map_cons, List.mem_cons]
      rcases List.mem_append.mp hi with h1 | h1
      · by_cases hc : a.state = CirclePipelineState.created
        · rw [if_pos hc] at h1
          simp only [List.mem_singleton] at h1
          exact Or.inl h1
        · rw [if_neg hc] at h1
          simp at h1
      · exact Or.inr (hsub i h1)

theorem resolverBody_eq_scan (env : CircleEnv) (branch url tok slug : String)
    (ps : List CirclePipelineItem)
    (hurl : env.buildUrl = Except.ok url)
    (htok : env.circleToken = Except.ok tok)
    (hslug : env.parseSlug url = some slug)
    (hps : env.pipelines slug branch = Except.ok ps) :
    resolverBody env branch =
      match find ps (evalPipeline env) with
      | Except.error e => Except.error e
      | Except.ok r => Except.ok (r.map (fun p => p.vcs.revision)) := by
  simp only [resolverBody, hurl, htok, hslug, hps]

theorem scanPipelinesT_error_after_false (env : CircleEnv)
    (pre : List CirclePipelineItem) (p : CirclePipelineItem)
    (post : List CirclePipelineItem) (e : String)
    (hpre : ∀ q ∈ pre, evalPipeline env q = Except.ok false)
    (hp : evalPipelineT env p = Except.error e) :
    scanPipelinesT env (pre ++ p :: post) = Except.error e := by
  induction pre with
  | nil => simp only [List.nil_append, scanPipelinesT, hp]
  | cons a l ih =>
    have ha : evalPipelineT env a =
        Except.ok (false,
          if a.state = CirclePipelineState.created then [a.id] else []) := by
      rw [evalPipelineT_eq, hpre a (List.mem_cons_self a l)]
      rfl
    have hrec := ih (fun q hq => hpre q (List.mem_cons_of_mem a hq))
    simp only [List.cons_append, scanPipelinesT, ha, List.append_eq, hrec]

/-! ### Claim theorems -/

/-- C1: for every pipeline in state `created`, the evaluator judges it green
iff the deduplicated workflow set is non-empty and every entry has status
success or on_hold; a pipeline whose workflow list deduplicates to empty is
judged not green. -/
theorem created_pipeline_green_iff (env : CircleEnv) (p : CirclePipelineItem)
    (ws : List CircleWorkflowItem)
    (hstate : p.state = CirclePipelineState.created)
    (hws : env.workflows p.id = Except.ok ws) :
    (evalPipeline env p = Except.ok true ↔
      (dedupeWorkflows ws ≠ [] ∧
        ∀ w ∈ dedupeWorkflows ws,
          w.status = CircleWorkflowStatus.success ∨
            w.status = CircleWorkflowStatus.onHold)) ∧
      (dedupeWorkflows ws = [] → evalPipeline env p = Except.ok false) := by
  have hev : evalPipeline env p = Except.ok (isGreenWorkflows ws) := by
    simp [evalPipeline, hstate, hws]
  constructor
  · rw [hev]
    simp only [Except.ok.injEq]
    exact isGreenWorkflows_iff ws
  · intro hnil
    have hng : ¬ isGreenWorkflows ws = true := by
      rw [isGreenWorkflows_iff]
      rintro ⟨hne, _⟩
      exact hne hnil
    rw [hev, Bool.eq_false_iff.mpr hng]

theorem created_pipeline_green_iff_witness :
    (evalPipeline envGreen pGreen = Except.ok true ↔
      (dedupeWorkflows [wfBuildSuccess, wfBuildFailed, wfTestOnHold] ≠ [] ∧
        ∀ w ∈ dedupeWorkflows [wfBuildSuccess, wfBuildFailed, wfTestOnHold],
          w.status = CircleWorkflowStatus.success ∨
            w.status = CircleWorkflowStatus.onHold)) ∧
      (dedupeWorkflows [wfBuildSuccess, wfBuildFailed, wfTestOnHold] = [] →
        evalPipeline envGreen pGreen = Except.ok false) :=
  created_pipeline_green_iff envGreen pGreen
    [wfBuildSuccess, wfBuildFailed, wfTestOnHold] rfl rfl

/-- C3: a pipeline whose state is not `created` is judged not green and no
workflow fetch is issued for it (its fetch trace is empty). -/
theorem not_created_not_green_no_fetch (env : CircleEnv)
    (p : CirclePipelineItem) (h : p.state ≠ CirclePipelineState.created) :
    evalPipeline env p = Except.ok false ∧
      evalPipelineT env p = Except.ok (false, []) := by
  constructor
  · simp [evalPipeline, h]
  · simp [evalPipelineT, h]

theorem not_created_not_green_no_fetch_witness :
    evalPipeline envGreen pPending = Except.ok false ∧
      evalPipelineT envGreen pPending = Except.ok (false, []) :=
  not_created_not_green_no_fetch envGreen pPending (by decide)

/-- C6: the status ranking is the fixed total function success=5, on_hold=4,
running=3, not_run=2, failed=error=failing=canceled=1, unauthorized=0, and
every status outside the table ranks 0.  All ranking, dedup and green-check
functions are total Lean functions, so no status value can crash them. -/
theorem statusPriority_table :
    statusPriority CircleWorkflowStatus.success = 5 ∧
    statusPriority CircleWorkflowStatus.onHold = 4 ∧
    statusPriority CircleWorkflowStatus.running = 3 ∧
    statusPriority CircleWorkflowStatus.notRun = 2 ∧
    statusPriority CircleWorkflowStatus.failed = 1 ∧
    statusPriority CircleWorkflowStatus.error = 1 ∧
    statusPriority CircleWorkflowStatus.failing = 1 ∧
    statusPriority CircleWorkflowStatus.canceled = 1 ∧
    statusPriority CircleWorkflowStatus.unauthorized = 0 ∧
    ∀ raw : String, statusPriority (CircleWorkflowStatus.unrecognized raw) = 0 :=
  ⟨rfl, rfl, rfl, rfl, rfl, rfl, rfl, rfl, rfl, fun _ => rfl⟩

theorem statusPriority_table_witness :
    statusPriority (CircleWorkflowStatus.unrecognized "mystery") = 0 :=
  statusPriority_table.2.2.2.2.2.2.2.2.2 "mystery"

/-- C7: deduplication is idempotent: dedupe (dedupe xs) = dedupe xs. -/
theorem dedupe_idempotent (xs : List CircleWorkflowItem) :
    dedupeWorkflows (dedupeWorkflows xs) = dedupeWorkflows xs :=
  dedupeWorkflows_idem xs

theorem dedupe_idempotent_witness :
    dedupeWorkflows (dedupeWorkflows [wfBuildSuccess, wfBuildFailed, wfTestOnHold]) =
      dedupeWorkflows [wfBuildSuccess, wfBuildFailed, wfTestOnHold] :=
  dedupe_idempotent [wfBuildSuccess, wfBuildFailed, wfTestOnHold]

/-- C10: every entry of the deduplicated output is one of the input
workflows, and the output lists names in order of each name's first
occurrence in the input. -/
theorem dedupe_entries_source_and_order (xs : List CircleWorkflowItem) :
    (∀ w ∈ dedupeWorkflows xs, w ∈ xs) ∧
      (dedupeWorkflows xs).map (fun x => x.name) =
        firstOccurrences (xs.map (fun x => x.name)) :=
  ⟨fun _ hw => mem_dedupeWorkflows hw, map_name_dedupeWorkflows xs⟩

theorem dedupe_entries_source_and_order_witness :
    wfBuildSuccess ∈ [wfBuildSuccess, wfBuildFailed, wfTestOnHold] ∧
      (dedupeWorkflows [wfBuildSuccess, wfBuildFailed, wfTestOnHold]).map
          (fun x => x.name) =
        firstOccurrences
          ([wfBuildSuccess, wfBuildFailed, wfTestOnHold].map (fun x => x.name)) :=
  ⟨(dedupe_entries_source_and_order [wfBuildSuccess, wfBuildFailed, wfTestOnHold]).1
      wfBuildSuccess (by decide),
    (dedupe_entries_source_and_order [wfBuildSuccess, wfBuildFailed, wfTestOnHold]).2⟩

/-- C4: after deduplication every distinct input name has exactly one
representative; the representative has the maximum status rank among all
same-named input workflows; for two same-named workflows with strictly
ordered ranks, the higher-ranked one is the output entry in either input
order; and an `unauthorized` workflow never wins against any other status. -/
theorem dedupe_representative_properties :
    (∀ xs : List CircleWorkflowItem,
      ((dedupeWorkflows xs).map (fun x => x.name)).Nodup ∧
        ∀ n, n ∈ (dedupeWorkflows xs).map (fun x => x.name) ↔
          n ∈ xs.map (fun x => x.name)) ∧
    (∀ (xs : List CircleWorkflowItem) (w : CircleWorkflowItem),
      w ∈ dedupeWorkflows xs → ∀ v ∈ xs, v.name = w.name →
        statusPriority v.status ≤ statusPriority w.status) ∧
    (∀ w1 w2 : CircleWorkflowItem, w1.name = w2.name →
      statusPriority w2.status < statusPriority w1.status →
      dedupeWorkflows [w1, w2] = [w1] ∧ dedupeWorkflows [w2, w1] = [w1]) ∧
    (∀ c e : CircleWorkflowItem, c.status = CircleWorkflowStatus.unauthorized →
      shouldPreferWorkflow c e = false) := by
  refine ⟨?_, ?_, ?_, ?_⟩
  · intro xs
    exact ⟨nodup_map_name_dedupeWorkflows xs, fun n => mem_map_name_dedupeWorkflows xs n⟩
  · intro xs w hw v hv h
    exact statusPriority_le_dedupe xs w hw v hv h
  · intro w1 w2 hname hrank
    have hbeq12 : (w1.name == w2.name) = true := beq_iff_eq.mpr hname
    have hbeq21 : (w2.name == w1.name) = true := beq_iff_eq.mpr hname.symm
    have hnp : shouldPreferWorkflow w2 w1 = false := by
      simp only [shouldPreferWorkflow, decide_eq_false_iff_not]
      omega
    have hp : shouldPreferWorkflow w1 w2 = true := by
      simp only [shouldPreferWorkflow, decide_eq_true_eq]
      omega
    constructor
    · simp [dedupeWorkflows, dedupeStep, List.find?, hbeq12, hnp]
    · simp only [dedupeWorkflows, List.foldl_cons, List.foldl_nil]
      have h1 : dedupeStep [] w2 = [w2] := rfl
      rw [h1, dedupeStep]
      simp only [List.find?_cons, hbeq21, hp, if_pos, List.map_cons, List.map_nil,
        if_true]
  · intro c e h
    simp only [shouldPreferWorkflow, h, statusPriority, decide_eq_false_iff_not]
    omega

theorem dedupe_representative_properties_witness :
    ((dedupeWorkflows [wfBuildSuccess, wfBuildFailed]).map (fun x => x.name)).Nodup ∧
      statusPriority wfBuildFailed.status ≤ statusPriority wfBuildSuccess.status ∧
      (dedupeWorkflows [wfBuildSuccess, wfBuildFailed] = [wfBuildSuccess] ∧
        dedupeWorkflows [wfBuildFailed, wfBuildSuccess] = [wfBuildSuccess]) ∧
      shouldPreferWorkflow wfBuildUnauthorized wfBuildFailed = false :=
  ⟨(dedupe_representative_properties.1 [wfBuildSuccess, wfBuildFailed]).1,
    dedupe_representative_properties.2.1 [wfBuildSuccess, wfBuildFailed]
      wfBuildSuccess (by decide) wfBuildFailed (by decide) rfl,
    dedupe_representative_properties.2.2.1 wfBuildSuccess wfBuildFailed rfl (by decide),
    dedupe_representative_properties.2.2.2 wfBuildUnauthorized wfBuildFailed rfl⟩

/-- C5: the stored entry is replaced only on a strictly greater rank, so on
rank ties among same-named workflows the earliest of the top-ranked ones is
kept: every dedup representative occurs in the input at a position where all
earlier same-named entries have strictly lower rank. -/
theorem dedupe_tie_keeps_first :
    (∀ c e : CircleWorkflowItem,
      statusPriority c.status = statusPriority e.status →
      shouldPreferWorkflow c e = false) ∧
    (∀ (xs : List CircleWorkflowItem) (w : CircleWorkflowItem),
      w ∈ dedupeWorkflows xs → ∃ l1 l2, xs = l1 ++ w :: l2 ∧
        ∀ v ∈ l1, v.name = w.name →
          statusPriority v.status < statusPriority w.status) := by
  constructor
  · intro c e h
    simp only [shouldPreferWorkflow, decide_eq_false_iff_not]
    omega
  · exact fun xs w hw => dedupe_first_among_max xs w hw

theorem dedupe_tie_keeps_first_witness :
    shouldPreferWorkflow wfBuildSuccess2 wfBuildSuccess = false ∧
      ∃ l1 l2, [wfBuildSuccess, wfBuildSuccess2] = l1 ++ wfBuildSuccess :: l2 ∧
        ∀ v ∈ l1, v.name = wfBuildSuccess.name →
          statusPriority v.status < statusPriority wfBuildSuccess.status :=
  ⟨dedupe_tie_keeps_first.1 wfBuildSuccess2 wfBuildSuccess rfl,
    dedupe_tie_keeps_first.2 [wfBuildSuccess, wfBuildSuccess2] wfBuildSuccess (by decide)⟩

/-- C2: the resolver scans the pipelines in order, returns the
`vcs.revision` of the first pipeline judged green (with no workflow fetch
for any pipeline after it), and returns none when no pipeline is judged
green. -/
theorem scan_returns_first_green :
    (∀ (env : CircleEnv) (branch url tok slug : String)
        (pre post : List CirclePipelineItem) (p : CirclePipelineItem),
      env.buildUrl = Except.ok url →
      env.circleToken = Except.ok tok →
      env.parseSlug url = some slug →
      env.pipelines slug branch = Except.ok (pre ++ p :: post) →
      (∀ q ∈ pre, evalPipeline env q = Except.ok false) →
      evalPipeline env p = Except.ok true →
      (find (pre ++ p :: post) (evalPipeline env) = Except.ok (some p) ∧
        getLastSuccessfulBuildRevisionOnBranch env branch = some p.vcs.revision ∧
        ∃ t, scanPipelinesT env (pre ++ p :: post) = Except.ok (some p, t) ∧
          ∀ i ∈ t, i ∈ (pre ++ [p]).map (fun q => q.id))) ∧
    (∀ (env : CircleEnv) (branch url tok slug : String)
        (ps : List CirclePipelineItem),
      env.buildUrl = Except.ok url →
      env.circleToken = Except.ok tok →
      env.parseSlug url = some slug →
      env.pipelines slug branch = Except.ok ps →
      (∀ q ∈ ps, evalPipeline env q = Except.ok false) →
      (find ps (evalPipeline env) = Except.ok none ∧
        getLastSuccessfulBuildRevisionOnBranch env branch = none)) := by
  constructor
  · intro env branch url tok slug pre post p hurl htok hslug hps hpre hp
    have hfind := find_first_true pre p post (evalPipeline env) hpre hp
    refine ⟨hfind, ?_, scanPipelinesT_first_true env pre p post hpre hp⟩
    rw [getLastSuccessfulBuildRevisionOnBranch,
      resolverBody_eq_scan env branch url tok slug _ hurl htok hslug hps, hfind]
    rfl
  · intro env branch url tok slug ps hurl htok hslug hps hall
    have hfind := find_of_all_false ps (evalPipeline env) hall
    refine ⟨hfind, ?_⟩
    rw [getLastSuccessfulBuildRevisionOnBranch,
      resolverBody_eq_scan env branch url tok slug ps hurl htok hslug hps, hfind]
    rfl

theorem scan_returns_first_green_witness :
    (find ([pPending] ++ pGreen :: [pLater]) (evalPipeline envGreen) =
        Except.ok (some pGreen) ∧
      getLastSuccessfulBuildRevisionOnBranch envGreen "main" =
        some pGreen.vcs.revision ∧
      ∃ t, scanPipelinesT envGreen ([pPending] ++ pGreen :: [pLater]) =
          Except.ok (some pGreen, t) ∧
        ∀ i ∈ t, i ∈ ([pPending] ++ [pGreen]).map (fun q => q.id)) ∧
    (find [pPending, pRed] (evalPipeline envAllRed) = Except.ok none ∧
      getLastSuccessfulBuildRevisionOnBranch envAllRed "main" = none) := by
  constructor
  · refine scan_returns_first_green.1 envGreen "main"
      "https://circleci.com/gh/acme/widget/42" "tok" "gh/acme/widget"
      [pPending] [pLater] pGreen rfl rfl rfl rfl ?_ rfl
    intro q hq
    rw [List.mem_singleton] at hq
    subst hq
    rfl
  · refine scan_returns_first_green.2 envAllRed "main"
      "https://circleci.com/gh/acme/widget/42" "tok" "gh/acme/widget"
      [pPending, pRed] rfl rfl rfl rfl ?_
    intro q hq
    rcases List.mem_cons.mp hq with rfl | hq
    · rfl
    · rw [List.mem_singleton] at hq
      subst hq
      rfl

/-- C8: every failure in the chain (missing configuration, pipeline-fetch
failure, workflow-fetch failure during the scan) makes the resolver return
absence rather than raise, and the caller cannot distinguish a failed run
from a run that found no successful build. -/
theorem resolver_collapses_failures :
    (∀ (env : CircleEnv) (branch e : String),
      env.buildUrl = Except.error e →
      getLastSuccessfulBuildRevisionOnBranch env branch = none) ∧
    (∀ (env : CircleEnv) (branch url e : String),
      env.buildUrl = Except.ok url →
      env.circleToken = Except.error e →
      getLastSuccessfulBuildRevisionOnBranch env branch = none) ∧
    (∀ (env : CircleEnv) (branch url tok slug e : String),
      env.buildUrl = Except.ok url →
      env.circleToken = Except.ok tok →
      env.parseSlug url = some slug →
      env.pipelines slug branch = Except.error e →
      getLastSuccessfulBuildRevisionOnBranch env branch = none) ∧
    (∀ (env : CircleEnv) (branch e : String),
      resolverBody env branch = Except.error e →
      getLastSuccessfulBuildRevisionOnBranch env branch = none) ∧
    (∀ (env env2 : CircleEnv) (branch branch2 e : String),
      resolverBody env branch = Except.error e →
      resolverBody env2 branch2 = Except.ok none →
      getLastSuccessfulBuildRevisionOnBranch env branch =
        getLastSuccessfulBuildRevisionOnBranch env2 branch2) := by
  refine ⟨?_, ?_, ?_, ?_, ?_⟩
  · intro env branch e h
    simp [getLastSuccessfulBuildRevisionOnBranch, resolverBody, h]
  · intro env branch url e hurl h
    simp [getLastSuccessfulBuildRevisionOnBranch, resolverBody, hurl, h]
  · intro env branch url tok slug e hurl htok hslug h
    simp [getLastSuccessfulBuildRevisionOnBranch, resolverBody, hurl, htok, hslug, h]
  · intro env branch e h
    simp [getLastSuccessfulBuildRevisionOnBranch, h]
  · intro env env2 branch branch2 e h1 h2
    simp [getLastSuccessfulBuildRevisionOnBranch, h1, h2]

theorem resolver_collapses_failures_witness :
    getLastSuccessfulBuildRevisionOnBranch envNoConfig "main" = none ∧
      getLastSuccessfulBuildRevisionOnBranch envFetchFail "main" =
        getLastSuccessfulBuildRevisionOnBranch envEmptyPipelines "main" :=
  ⟨resolver_collapses_failures.1 envNoConfig "main" "CIRCLE_BUILD_URL missing" rfl,
    resolver_collapses_failures.2.2.2.2 envFetchFail envEmptyPipelines
      "main" "main" "socket hang up" rfl rfl⟩

/-- C9: when a pipeline's workflow fetch fails, the evaluator does not mark
it green but propagates the failure, which aborts the whole scan (both the
plain and the instrumented scanner stop with the error), and the resolution
reports absence. -/
theorem workflow_fetch_failure_aborts (env : CircleEnv)
    (branch url tok slug e : String) (pre post : List CirclePipelineItem)
    (p : CirclePipelineItem)
    (hurl : env.buildUrl = Except.ok url)
    (htok : env.circleToken = Except.ok tok)
    (hslug : env.parseSlug url = some slug)
    (hps : env.pipelines slug branch = Except.ok (pre ++ p :: post))
    (hpre : ∀ q ∈ pre, evalPipeline env q = Except.ok false)
    (hstate : p.state = CirclePipelineState.created)
    (hwf : env.workflows p.id = Except.error e) :
    evalPipeline env p = Except.error e ∧
      find (pre ++ p :: post) (evalPipeline env) = Except.error e ∧
      scanPipelinesT env (pre ++ p :: post) = Except.error e ∧
      getLastSuccessfulBuildRevisionOnBranch env branch = none := by
  have hev : evalPipeline env p = Except.error e := by
    simp [evalPipeline, hstate, hwf]
  have hevT : evalPipelineT env p = Except.error e := by
    simp [evalPipelineT, hstate, hwf]
  have hfind := find_error_after_false pre p post (evalPipeline env) e hpre hev
  refine ⟨hev, hfind, scanPipelinesT_error_after_false env pre p post e hpre hevT, ?_⟩
  rw [getLastSuccessfulBuildRevisionOnBranch,
    resolverBody_eq_scan env branch url tok slug _ hurl htok hslug hps, hfind]

theorem workflow_fetch_failure_aborts_witness :
    evalPipeline envFetchFail pErr = Except.error "socket hang up" ∧
      find ([pPending] ++ pErr :: [pLater]) (evalPipeline envFetchFail) =
        Except.error "socket hang up" ∧
      scanPipelinesT envFetchFail ([pPending] ++ pErr :: [pLater]) =
        Except.error "socket hang up" ∧
      getLastSuccessfulBuildRevisionOnBranch envFetchFail "main" = none := by
  refine workflow_fetch_failure_aborts envFetchFail "main"
    "https://circleci.com/gh/acme/widget/42" "tok" "gh/acme/widget"
    "socket hang up" [pPending] [pLater] pErr rfl rfl rfl rfl ?_ rfl rfl
  intro q hq
  rw [List.mem_singleton] at hq
  subst hq
  rfl

end Circletron
